import Mathlib

/-!
Shallow embedding of the character-driver bounded stack in `src/source.c`.

The driver keeps four pieces of global state:
  * `stack_entries : int32_t*` — the heap buffer (NULL when not allocated),
  * `stack_size : uint8_t`    — the stored capacity,
  * `top : uint8_t`           — the number of live elements,
and all file operations run under one mutex, so each operation is atomic and
can be modelled as a pure function on a state record.

Modelling choices:
  * `uint8_t` assignments are reduced with `u8 (n) = n % 256`, exactly where
    the C code assigns into the 8-bit variables (`stack_size = MEM_SIZE`,
    `stack_size = arg`, `top++`).  `top--` only happens under `top ≠ 0`,
    where Nat subtraction agrees with the 8-bit decrement.
  * the buffer is a total function `Nat → Int`; int32 values are copied
    verbatim by the driver (no arithmetic on them), so plain `Int` is enough.
    Slots the C code never wrote hold unspecified kmalloc garbage; the model
    keeps the previous memory contents / `0` there, and no theorem below
    reads such a slot as meaningful data.
  * `kmalloc` is modelled as always succeeding, and `copy_to_user` /
    `copy_from_user` as always succeeding (their `-EFAULT` path concerns
    user memory, not the stack state).
  * every operation returns its result together with the post-state; an
    error return carries the unchanged state, matching the C code, which
    returns before touching the globals on every error path.
-/

/-- Reduction of a value assigned into a `uint8_t` variable. -/
def u8 (n : Nat) : Nat := n % 256

/-- `#define MEM_SIZE 1024` -/
def MEM_SIZE : Nat := 1024

/-- `#define STACK_MAX_SIZE 1024` -/
def STACK_MAX_SIZE : Nat := 1024

/-- Error returns of the file operations (`-ENOMEM`, `-EINVAL`, `-EFAULT`). -/
inductive Errno where
  | ENOMEM
  | EINVAL
  | EFAULT
deriving DecidableEq, Repr

/-- The driver's global state: `stack_entries != NULL`, `stack_size`, `top`,
and the buffer contents. -/
structure DriverState where
  allocated : Bool
  stack_size : Nat
  top : Nat
  buf : Nat → Int

/-- State at module load: `stack_entries = NULL`, `stack_size = 0`, `top = 0`. -/
def initState : DriverState :=
  { allocated := false, stack_size := 0, top := 0, buf := fun _ => 0 }

/-- `new_open`: if `stack_entries == NULL`, allocate `MEM_SIZE` ints and set
`stack_size = MEM_SIZE` (a `uint8_t` assignment, hence `u8 MEM_SIZE`) and
`top = 0`; otherwise do nothing.  Returns 0. -/
def new_open (s : DriverState) : Int × DriverState :=
  if s.allocated then (0, s)
  else (0, { allocated := true, stack_size := u8 MEM_SIZE, top := 0, buf := s.buf })

/-- `new_release`: if `stack_entries` is non-NULL, free it and zero
`stack_size` and `top`; otherwise do nothing.  Returns 0. -/
def new_release (s : DriverState) : Int × DriverState :=
  if s.allocated then
    (0, { allocated := false, stack_size := 0, top := 0, buf := s.buf })
  else (0, s)

/-- `new_read` (pop): if `top == 0` return `-EINVAL`; otherwise copy
`stack_entries[top - 1]` to the user and decrement `top`. -/
def new_read (s : DriverState) : Except Errno Int × DriverState :=
  if s.top = 0 then (.error .EINVAL, s)
  else (.ok (s.buf (s.top - 1)), { s with top := s.top - 1 })

/-- `new_write` (push): if `top >= stack_size` return `-ENOMEM`; otherwise
store the value at `stack_entries[top]` and increment `top` (a `uint8_t`
increment, hence `u8 (top + 1)`). -/
def new_write (s : DriverState) (v : Int) : Except Errno Unit × DriverState :=
  if s.top ≥ s.stack_size then (.error .ENOMEM, s)
  else (.ok (), { s with buf := fun i => if i = s.top then v else s.buf i,
                         top := u8 (s.top + 1) })

/-- `new_ioctl`: command 1 with `0 < arg <= STACK_MAX_SIZE` allocates a new
buffer of `arg` ints, copies `top` elements of the old buffer into it when
`stack_entries` is non-NULL (this is `memcpy(new_stack, stack_entries,
top * sizeof(int32_t))`, which copies `top` elements regardless of `arg`),
and stores `stack_size = arg` (a `uint8_t` assignment, hence `u8 arg`).
`top` is not modified.  Any other command or argument returns `-EINVAL`. -/
def new_ioctl (s : DriverState) (cmd : Nat) (arg : Nat) :
    Except Errno Unit × DriverState :=
  if cmd = 1 then
    if 0 < arg ∧ arg ≤ STACK_MAX_SIZE then
      (.ok (), { allocated := true,
                 stack_size := u8 arg,
                 top := s.top,
                 buf := fun i =>
                   if s.allocated = true ∧ i < s.top then s.buf i else 0 })
    else (.error .EINVAL, s)
  else (.error .EINVAL, s)

/-- A sequence of pushes; stops at the first failing push. -/
def pushSeq (s : DriverState) : List Int → Except Errno DriverState
  | [] => .ok s
  | v :: vs =>
    match new_write s v with
    | (.ok _, s1) => pushSeq s1 vs
    | (.error e, _) => .error e

/-- `n` consecutive pops, collecting the popped values in order. -/
def popN (s : DriverState) : Nat → Except Errno (List Int × DriverState)
  | 0 => .ok ([], s)
  | n + 1 =>
    match new_read s with
    | (.ok v, s1) =>
      match popN s1 n with
      | .ok (vs, s2) => .ok (v :: vs, s2)
      | .error e => .error e
    | (.error e, _) => .error e

/-- States reachable from module load by any sequence of file operations. -/
inductive Reachable : DriverState → Prop where
  | start : Reachable initState
  | step_open {s} : Reachable s → Reachable (new_open s).2
  | step_release {s} : Reachable s → Reachable (new_release s).2
  | step_read {s} : Reachable s → Reachable (new_read s).2
  | step_write {s v} : Reachable s → Reachable (new_write s v).2
  | step_ioctl {s cmd arg} : Reachable s → Reachable (new_ioctl s cmd arg).2

/-- Representation invariant of the C globals: when `stack_entries` is NULL
the driver has always just zeroed `stack_size` and `top`. -/
def NullZero (s : DriverState) : Prop :=
  s.allocated = false → s.stack_size = 0 ∧ s.top = 0

theorem reachable_nullZero {s : DriverState} (h : Reachable s) : NullZero s := by
  induction h with
  | start => exact fun _ => ⟨rfl, rfl⟩
  | step_open hr ih =>
    rename_i s
    intro hna
    unfold new_open at hna ⊢
    by_cases hs : s.allocated
    · rw [if_pos hs] at hna ⊢
      exact ih hna
    · rw [if_neg hs] at hna
      exact Bool.noConfusion hna
  | step_release hr ih =>
    rename_i s
    intro hna
    unfold new_release at hna ⊢
    by_cases hs : s.allocated
    · rw [if_pos hs]
      exact ⟨rfl, rfl⟩
    · rw [if_neg hs] at hna ⊢
      exact ih hna
  | step_read hr ih =>
    rename_i s
    intro hna
    unfold new_read at hna ⊢
    by_cases hs : s.top = 0
    · rw [if_pos hs] at hna ⊢
      exact ih hna
    · rw [if_neg hs] at hna ⊢
      exact absurd (ih hna).2 hs
  | step_write hr ih =>
    rename_i s v
    intro hna
    unfold new_write at hna ⊢
    by_cases hs : s.top ≥ s.stack_size
    · rw [if_pos hs] at hna ⊢
      exact ih hna
    · rw [if_neg hs] at hna ⊢
      obtain ⟨h1, h2⟩ := ih hna
      omega
  | step_ioctl hr ih =>
    rename_i s cmd arg
    intro hna
    unfold new_ioctl at hna ⊢
    by_cases hc : cmd = 1
    · by_cases ha : 0 < arg ∧ arg ≤ STACK_MAX_SIZE
      · rw [if_pos hc, if_pos ha] at hna
        exact Bool.noConfusion hna
      · rw [if_pos hc, if_neg ha] at hna ⊢
        exact ih hna
    · rw [if_neg hc] at hna ⊢
      exact ih hna

/-! ### Concrete driver runs used by the claim theorems -/

/-- State right after the first `open` on a freshly loaded module. -/
def sOpen : DriverState := (new_open initState).2

/-- `sOpen` after `ioctl(1, 8)`: stored capacity 8, empty. -/
def sCap8 : DriverState := (new_ioctl sOpen 1 8).2

/-- `sCap8` after pushing 1, 2, 3, 4, 5: stored capacity 8, `top = 5`. -/
def sFive : DriverState :=
  (new_write (new_write (new_write (new_write (new_write sCap8 1).2 2).2 3).2 4).2 5).2

/-- `sOpen` after `ioctl(1, 4)`: stored capacity 4, empty. -/
def sCap4 : DriverState := (new_ioctl sOpen 1 4).2

/-- `sCap4` after pushing 10 and 20: stored capacity 4, `top = 2`. -/
def sTwo : DriverState := (new_write (new_write sCap4 10).2 20).2

/-- State after `open` then `release` on a freshly loaded module:
`stack_entries = NULL` again. -/
def sClosed : DriverState := (new_release sOpen).2

/-- The five pushes building `sFive` all succeed. -/
theorem pushSeq_sCap8 : pushSeq sCap8 [1, 2, 3, 4, 5] = .ok sFive := rfl

/-! ### Claim theorems -/

/-- C1 (code behaviour at the claimed input): with stored capacity 8 and five
live elements, `ioctl(1, 2)` — a resize below `top` — succeeds but leaves
`top = 5` instead of clamping it to the new capacity 2, so afterwards
`top > stack_size`.  (In the C code the accompanying
`memcpy(new_stack, stack_entries, top * sizeof(int32_t))` also writes 5
elements into the 2-element allocation.)  This contradicts the claim that
resize with `newCapacity < top` sets `top = newCapacity`. -/
theorem c1_shrink_resize_keeps_top :
    sFive.stack_size = 8 ∧ sFive.top = 5 ∧
    (new_ioctl sFive 1 2).1 = .ok () ∧
    (new_ioctl sFive 1 2).2.stack_size = 2 ∧
    (new_ioctl sFive 1 2).2.top = 5 :=
  ⟨rfl, rfl, rfl, rfl, rfl⟩

/-- C2 (code behaviour at the claimed input): the first `open` allocates
`MEM_SIZE = 1024` ints but stores the capacity in the `uint8_t`
`stack_size`, which truncates `1024` to `0`; consequently the very first
push already fails with `-ENOMEM` and leaves the state unchanged.  This
contradicts the claim that 1024 pushes succeed after session-begin. -/
theorem c2_open_stores_zero_capacity :
    sOpen.allocated = true ∧ sOpen.stack_size = 0 ∧ sOpen.top = 0 ∧
    (new_write sOpen 42).1 = .error .ENOMEM ∧
    (new_write sOpen 42).2 = sOpen :=
  ⟨rfl, rfl, rfl, rfl, rfl⟩

/-- C3 (code behaviour at the claimed input): the state `sFive` (stored
capacity 8, `top = 5`) satisfies `top ≤ stack_size`, yet the successful
`ioctl(1, 3)` produces a state with `stack_size = 3 < 5 = top`, so the
invariant `0 ≤ top ≤ capacity` is not preserved by every resize. -/
theorem c3_resize_breaks_invariant :
    sFive.top ≤ sFive.stack_size ∧
    (new_ioctl sFive 1 3).1 = .ok () ∧
    (new_ioctl sFive 1 3).2.stack_size = 3 ∧
    (new_ioctl sFive 1 3).2.top = 5 ∧
    ¬ (new_ioctl sFive 1 3).2.top ≤ (new_ioctl sFive 1 3).2.stack_size :=
  ⟨by decide, rfl, rfl, rfl, by decide⟩

/-- C5 (code behaviour at the claimed input): growing resize `ioctl(1, 256)`
from stored capacity 4 with two live elements keeps the two elements in
place and leaves `top = 2`, but stores `stack_size = 256 % 256 = 0` in the
`uint8_t`, so the usable room drops to zero — the next push fails — instead
of the capacity becoming 256 as the claim states. -/
theorem c5_resize_256_truncates_capacity :
    sTwo.stack_size = 4 ∧ sTwo.top = 2 ∧
    (new_ioctl sTwo 1 256).1 = .ok () ∧
    (new_ioctl sTwo 1 256).2.top = 2 ∧
    (new_ioctl sTwo 1 256).2.buf 0 = 10 ∧
    (new_ioctl sTwo 1 256).2.buf 1 = 20 ∧
    (new_ioctl sTwo 1 256).2.stack_size = 0 ∧
    (new_write (new_ioctl sTwo 1 256).2 99).1 = .error .ENOMEM :=
  ⟨rfl, rfl, rfl, rfl, rfl, rfl, rfl, rfl⟩

/-- C4 counterexample: after `open` then `release` the stack does not exist
(`stack_entries = NULL`), yet push fails with `-ENOMEM` — the very error of
a full stack (`Exhausted`) — and pop fails with `-EINVAL` — the very error
of an empty stack (`Empty`); the two errors differ, so push and pop do not
both return one distinct `NotInitialized` error as the claim states (the
code has no such error path at all). -/
theorem c4_no_distinct_uninitialized_error :
    sClosed.allocated = false ∧
    (new_write sClosed 7).1 = .error Errno.ENOMEM ∧
    (new_read sClosed).1 = .error Errno.EINVAL ∧
    Errno.ENOMEM ≠ Errno.EINVAL :=
  ⟨rfl, rfl, rfl, by decide⟩

/-- C4 amended: in every reachable state in which the stack does not exist,
push fails with the full-stack error `-ENOMEM` and pop fails with the
empty-stack error `-EINVAL`, and neither mutates the state; there is no
distinct `NotInitialized` error. -/
theorem c4_uninitialized_push_pop_errors (s : DriverState) (v : Int)
    (hr : Reachable s) (hna : s.allocated = false) :
    new_write s v = (.error .ENOMEM, s) ∧ new_read s = (.error .EINVAL, s) := by
  obtain ⟨h1, h2⟩ := reachable_nullZero hr hna
  constructor
  · unfold new_write
    rw [if_pos (show s.top ≥ s.stack_size by omega)]
  · unfold new_read
    rw [if_pos h2]

/-- Concrete instance of `c4_uninitialized_push_pop_errors` at `sClosed`. -/
theorem c4_uninitialized_push_pop_errors_witness :
    new_write sClosed 7 = (.error .ENOMEM, sClosed) ∧
    new_read sClosed = (.error .EINVAL, sClosed) :=
  c4_uninitialized_push_pop_errors sClosed 7
    (Reachable.step_release (Reachable.step_open Reachable.start)) rfl

/-- C7: a resize request whose argument is `0` or greater than
`STACK_MAX_SIZE` fails with `-EINVAL` (the `InvalidSize` error) and returns
the state completely unchanged — capacity, `top` and buffer contents
included. -/
theorem c7_invalid_resize_rejected (s : DriverState) (arg : Nat)
    (h : arg = 0 ∨ arg > STACK_MAX_SIZE) :
    new_ioctl s 1 arg = (.error .EINVAL, s) := by
  unfold new_ioctl
  unfold STACK_MAX_SIZE at h
  rw [if_pos rfl, if_neg (by unfold STACK_MAX_SIZE; omega)]

/-- Concrete instance of `c7_invalid_resize_rejected` at argument 0. -/
theorem c7_invalid_resize_rejected_witness :
    (0 = 0 ∨ 0 > STACK_MAX_SIZE) ∧
    new_ioctl initState 1 0 = (.error .EINVAL, initState) :=
  ⟨Or.inl rfl, c7_invalid_resize_rejected initState 0 (Or.inl rfl)⟩

/-- C8: in every reachable state, `release` succeeds (returns 0) and leaves
the stack non-existent with `stack_size = 0` and `top = 0`, no matter how
many `open`s preceded it. -/
theorem c8_release_clears_state (s : DriverState) (hr : Reachable s) :
    (new_release s).1 = 0 ∧
    (new_release s).2.allocated = false ∧
    (new_release s).2.stack_size = 0 ∧
    (new_release s).2.top = 0 := by
  unfold new_release
  by_cases hs : s.allocated
  · rw [if_pos hs]
    exact ⟨rfl, rfl, rfl, rfl⟩
  · have hf : s.allocated = false := by revert hs; cases s.allocated <;> simp
    obtain ⟨h1, h2⟩ := reachable_nullZero hr hf
    rw [if_neg hs]
    exact ⟨rfl, hf, h1, h2⟩

/-- Concrete instance of `c8_release_clears_state` after one `open`. -/
theorem c8_release_clears_state_witness :
    (new_release sOpen).1 = 0 ∧
    (new_release sOpen).2.allocated = false ∧
    (new_release sOpen).2.stack_size = 0 ∧
    (new_release sOpen).2.top = 0 :=
  c8_release_clears_state sOpen (Reachable.step_open Reachable.start)

/-- C9: in every state, a valid resize `ioctl(1, n)` with
`0 < n ≤ STACK_MAX_SIZE` succeeds and stores `n % 256` in the `uint8_t`
`stack_size`; when `n` is a multiple of 256 (n = 256, 512, 768, 1024) the
stored capacity is 0 and every subsequent push fails with `-ENOMEM` without
mutating the state. -/
theorem c9_resize_capacity_mod_256 (s : DriverState) (n : Nat)
    (h1 : 0 < n) (h2 : n ≤ STACK_MAX_SIZE) :
    (new_ioctl s 1 n).1 = .ok () ∧
    (new_ioctl s 1 n).2.stack_size = n % 256 ∧
    (n % 256 = 0 → ∀ v : Int,
      (new_write (new_ioctl s 1 n).2 v).1 = .error .ENOMEM ∧
      (new_write (new_ioctl s 1 n).2 v).2 = (new_ioctl s 1 n).2) := by
  unfold new_ioctl
  rw [if_pos rfl, if_pos ⟨h1, h2⟩]
  refine ⟨rfl, rfl, fun hz v => ?_⟩
  unfold new_write
  rw [if_pos (show _ ≥ _ from by simp [u8, hz])]
  exact ⟨rfl, rfl⟩

/-- Concrete instance of `c9_resize_capacity_mod_256` at `n = 256`. -/
theorem c9_resize_capacity_mod_256_witness :
    (0 < 256 ∧ 256 ≤ STACK_MAX_SIZE) ∧
    (new_ioctl sOpen 1 256).1 = .ok () ∧
    (new_ioctl sOpen 1 256).2.stack_size = 0 ∧
    (new_write (new_ioctl sOpen 1 256).2 5).1 = .error .ENOMEM :=
  ⟨⟨by decide, by decide⟩,
    (c9_resize_capacity_mod_256 sOpen 256 (by decide) (by decide)).1,
    (c9_resize_capacity_mod_256 sOpen 256 (by decide) (by decide)).2.1,
    ((c9_resize_capacity_mod_256 sOpen 256 (by decide) (by decide)).2.2 rfl 5).1⟩

/-- C10: a valid resize `ioctl(1, n)`, `0 < n ≤ STACK_MAX_SIZE`, issued in a
reachable state in which the stack does not exist, does not fail: it
succeeds (returns 0, not `-EINVAL` or any other error), allocates the
buffer so the stack exists afterwards, and leaves `top = 0`. -/
theorem c10_resize_on_uninitialized (s : DriverState) (n : Nat)
    (hr : Reachable s) (hna : s.allocated = false)
    (h1 : 0 < n) (h2 : n ≤ STACK_MAX_SIZE) :
    (new_ioctl s 1 n).1 = .ok () ∧
    (new_ioctl s 1 n).2.allocated = true ∧
    (new_ioctl s 1 n).2.top = 0 := by
  obtain ⟨hsz, htop⟩ := reachable_nullZero hr hna
  unfold new_ioctl
  rw [if_pos rfl, if_pos ⟨h1, h2⟩]
  exact ⟨rfl, rfl, htop⟩

/-- Concrete instance of `c10_resize_on_uninitialized` at module load. -/
theorem c10_resize_on_uninitialized_witness :
    (initState.allocated = false ∧ 0 < 5 ∧ 5 ≤ STACK_MAX_SIZE) ∧
    (new_ioctl initState 1 5).1 = .ok () ∧
    (new_ioctl initState 1 5).2.allocated = true ∧
    (new_ioctl initState 1 5).2.top = 0 :=
  ⟨⟨rfl, by decide, by decide⟩,
    c10_resize_on_uninitialized initState 5 Reachable.start rfl
      (by decide) (by decide)⟩

/-! ### LIFO order (C6) -/

/-- Effect of a successful push sequence: `allocated` and `stack_size` are
unchanged, `top` grows by the number of pushed values, slots below the old
`top` keep their contents, and slot `top + i` receives the i-th pushed
value.  The hypothesis `stack_size < 256` records that the C variable is a
`uint8_t`, so the 8-bit increment of `top` never wraps here. -/
theorem pushSeq_ok (vs : List Int) (s s' : DriverState)
    (hsz : s.stack_size < 256)
    (h : pushSeq s vs = .ok s') :
    s'.allocated = s.allocated ∧ s'.stack_size = s.stack_size ∧
    s'.top = s.top + vs.length ∧
    (∀ j, j < s.top → s'.buf j = s.buf j) ∧
    (∀ i, (hi : i < vs.length) → s'.buf (s.top + i) = vs.get ⟨i, hi⟩) := by
  induction vs generalizing s with
  | nil =>
    rw [pushSeq] at h
    injection h with h
    subst h
    exact ⟨rfl, rfl, rfl, fun _ _ => rfl, fun i hi => absurd hi (Nat.not_lt_zero i)⟩
  | cons v vs ih =>
    rw [pushSeq] at h
    unfold new_write at h
    by_cases hg : s.top ≥ s.stack_size
    · rw [if_pos hg] at h
      exact Except.noConfusion h
    · rw [if_neg hg] at h
      have hu : u8 (s.top + 1) = s.top + 1 := Nat.mod_eq_of_lt (by omega)
      have h1 : pushSeq { s with buf := fun i => if i = s.top then v else s.buf i,
                                 top := u8 (s.top + 1) } vs = .ok s' := h
      obtain ⟨ha, hz, htop, hlow, hat⟩ :=
        ih { s with buf := fun i => if i = s.top then v else s.buf i,
                    top := u8 (s.top + 1) } hsz h1
      have hj : s.top < u8 (s.top + 1) := by rw [hu]; omega
      refine ⟨ha, hz, ?_, ?_, ?_⟩
      · rw [htop]
        show u8 (s.top + 1) + vs.length = s.top + (vs.length + 1)
        rw [hu]
        omega
      · intro j hjlt
        have hj2 : j < u8 (s.top + 1) := by rw [hu]; omega
        rw [hlow j hj2]
        show (if j = s.top then v else s.buf j) = s.buf j
        rw [if_neg (by omega)]
      · intro i hi
        cases i with
        | zero =>
          show s'.buf s.top = v
          rw [hlow s.top hj]
          show (if s.top = s.top then v else s.buf s.top) = v
          rw [if_pos rfl]
        | succ k =>
          have hk : k < vs.length := Nat.lt_of_succ_lt_succ hi
          have hidx : s.top + (k + 1) = u8 (s.top + 1) + k := by rw [hu]; omega
          rw [hidx]
          exact hat k hk

/-- Effect of popping `ws.length` values when the top-down contents of the
stack are exactly `ws`: every pop succeeds, the popped values are `ws` in
order, and only `top` changes, dropping by `ws.length`. -/
theorem popN_ok (ws : List Int) (s : DriverState)
    (hn : ws.length ≤ s.top)
    (hv : ∀ i, (hi : i < ws.length) → s.buf (s.top - 1 - i) = ws.get ⟨i, hi⟩) :
    popN s ws.length = .ok (ws, { s with top := s.top - ws.length }) := by
  induction ws generalizing s with
  | nil =>
    show popN s 0 = _
    rw [popN]
    show _ = Except.ok (([] : List Int), { s with top := s.top - 0 })
    rw [Nat.sub_zero]
  | cons w ws ih =>
    show popN s (ws.length + 1) = _
    rw [popN]
    unfold new_read
    have hpos : ¬ s.top = 0 := by
      have := hn
      simp only [List.length_cons] at this
      omega
    rw [if_neg hpos]
    have hw : s.buf (s.top - 1) = w := by
      have h0 := hv 0 (Nat.succ_pos ws.length)
      simpa using h0
    have hrec : popN { s with top := s.top - 1 } ws.length =
        .ok (ws, { s with top := s.top - 1 - ws.length }) := by
      have hn1 : ws.length ≤ s.top - 1 := by
        simp only [List.length_cons] at hn
        omega
      have hv1 : ∀ i, (hi : i < ws.length) →
          s.buf ((s.top - 1) - 1 - i) = ws.get ⟨i, hi⟩ := by
        intro i hi
        have h2 := hv (i + 1) (Nat.succ_lt_succ hi)
        have hidx : s.top - 1 - (i + 1) = (s.top - 1) - 1 - i := by omega
        rw [hidx] at h2
        exact h2
      exact ih _ hn1 hv1
    show (match popN { s with top := s.top - 1 } ws.length with
          | Except.ok (vs, s2) => Except.ok (s.buf (s.top - 1) :: vs, s2)
          | Except.error e => Except.error e) =
        Except.ok (w :: ws, { s with top := s.top - (ws.length + 1) })
    rw [hrec]
    show Except.ok (s.buf (s.top - 1) :: ws, { s with top := s.top - 1 - ws.length }) =
        Except.ok (w :: ws, { s with top := s.top - (ws.length + 1) })
    rw [hw, show s.top - 1 - ws.length = s.top - (ws.length + 1) from by omega]

/-- C6: after any successful run of pushes `v1, …, vn` (no interleaved
pops) on an existing stack, `n` pops all succeed and return
`vn, vn-1, …, v1`, leaving `top` back at its original value.  The
hypothesis `stack_size < 256` records that the C capacity variable is a
`uint8_t`; success of each push is the claim's own premise "all
succeeding". -/
theorem c6_lifo_order (s s' : DriverState) (vs : List Int)
    (_hal : s.allocated = true) (hsz : s.stack_size < 256)
    (h : pushSeq s vs = .ok s') :
    popN s' vs.length = .ok (vs.reverse, { s' with top := s.top }) := by
  obtain ⟨ha, hz, htop, hlow, hat⟩ := pushSeq_ok vs s s' hsz h
  have hlen : vs.reverse.length = vs.length := List.length_reverse vs
  have hn : vs.reverse.length ≤ s'.top := by omega
  have hv : ∀ i, (hi : i < vs.reverse.length) →
      s'.buf (s'.top - 1 - i) = vs.reverse.get ⟨i, hi⟩ := by
    intro i hi
    have hi' : i < vs.length := hlen ▸ hi
    have hg : vs.reverse.get ⟨i, hi⟩ =
        vs.get ⟨vs.length - 1 - i, by omega⟩ :=
      List.get_reverse' vs ⟨i, hi⟩ (by simp only [Fin.val_mk]; omega)
    rw [hg]
    have hidx : s'.top - 1 - i = s.top + (vs.length - 1 - i) := by omega
    rw [hidx]
    exact hat (vs.length - 1 - i) (by omega)
  have hmain := popN_ok vs.reverse s' hn hv
  rw [hlen] at hmain
  have hfin : s'.top - vs.length = s.top := by omega
  rw [hfin] at hmain
  exact hmain

/-- Concrete instance of `c6_lifo_order`: pushing 1, 2, 3, 4, 5 into the
empty capacity-8 stack and popping five times returns 5, 4, 3, 2, 1. -/
theorem c6_lifo_order_witness :
    sCap8.allocated = true ∧ sCap8.stack_size < 256 ∧
    pushSeq sCap8 [1, 2, 3, 4, 5] = .ok sFive ∧
    popN sFive 5 = .ok ([5, 4, 3, 2, 1], { sFive with top := sCap8.top }) :=
  ⟨rfl, by decide, pushSeq_sCap8, by
    have h := c6_lifo_order sCap8 sFive [1, 2, 3, 4, 5] rfl (by decide) pushSeq_sCap8
    simpa using h⟩
